import Mathlib

/-!
# cashbin-ex: the authorization middleware and the user handlers of `main.go`

A shallow embedding of `main.go`.  Go statements that mutate the response
writer, the package-level variable `users` or the state of a collaborator are
written in state-passing style:

* `http.ResponseWriter` is a record (header map, status line written so far,
  body written so far); `WriteHeader`, `Write`, `http.Error` and
  `http.NotFound` follow `net/http`;
* the package-level variable `users` and the state of everything else the
  enforcer or a handler may touch form the `World`;
* `*casbin.Enforcer` is seen through its one method used here, `Enforce`,
  returning the pair `(allowed, err)` and the next collaborator state;
* the part of `chi` that `main` uses (`NewRouter`, `Group`, `Use`, `Get`,
  `Post`, `Put`, `Delete`, `URLParam`, dispatch) is a routing table.
-/

namespace CashbinEx

/-! ## Data model -/

/-- The user struct of `main.go`. -/
structure User where
  ID : String
  Username : String
  Role : String
  deriving DecidableEq, Repr

/-- Sample user data: the initial value of the package-level variable `users`. -/
def users : List User :=
  [ { ID := "1", Username := "admin", Role := "admin" },
    { ID := "2", Username := "user1", Role := "user" },
    { ID := "3", Username := "user2", Role := "user" } ]

/-- An `http.Header`, as an association list from key to value. -/
abbrev Header := List (String × String)

/-- Method `Header.Del`: drop every entry stored under `key`. -/
def Header.Del (h : Header) (key : String) : Header :=
  h.filter (fun kv => !(kv.1 == key))

/-- Method `Header.Set`: replace whatever is stored under `key` by `value`. -/
def Header.Set (h : Header) (key value : String) : Header :=
  Header.Del h key ++ [(key, value)]

/-- The observable state behind an `http.ResponseWriter`: the header map, the
status code once `WriteHeader` has run (`none` before), and the bytes written. -/
structure ResponseWriter where
  header : Header
  status : Option Nat
  body : String
  deriving DecidableEq, Repr

/-- The part of `*http.Request` the program can observe: `r.Method`,
`r.URL.Path` (the decoded path), `r.URL.RawPath` (the encoded path, empty
unless the request target carries an escape that decoding would lose), the
route parameters `chi` stored in the request context (in binding order),
whether `r.Context()` is cancelled at the time the provider's decision is
returned, and the request content. -/
structure Request where
  Method : String
  Path : String
  RawPath : String
  URLParams : List (String × String)
  Cancelled : Bool
  Body : String
  deriving DecidableEq, Repr

/-- The status codes of `net/http` used by the program. -/
def StatusOK : Nat := 200
def StatusForbidden : Nat := 403
def StatusNotFound : Nat := 404
def StatusMethodNotAllowed : Nat := 405
def StatusInternalServerError : Nat := 500
def StatusNotImplemented : Nat := 501

/-- The writer the server hands to a handler chain for a new request. -/
def newResponse : ResponseWriter := { header := [], status := none, body := "" }

/-- Method `w.WriteHeader(code)`: the first call fixes the status, later calls are
ignored by `net/http` (it only logs a superfluous call). -/
def ResponseWriter.WriteHeader (w : ResponseWriter) (code : Nat) : ResponseWriter :=
  match w.status with
  | none => { w with status := some code }
  | some _ => w

/-- Method `w.Write(p)`: writes the header with `StatusOK` first when no header was
written yet, then appends `p` to the body. -/
def ResponseWriter.Write (w : ResponseWriter) (p : String) : ResponseWriter :=
  let w1 := w.WriteHeader StatusOK
  { w1 with body := w1.body ++ p }

/-- The status code the client receives: the one written, or `StatusOK` when
the handler chain returned without writing anything. -/
def ResponseWriter.statusCode (w : ResponseWriter) : Nat :=
  w.status.getD StatusOK

/-- Function `http.Error(w, error, code)`: plain-text headers, the status, then the
message as one line (`fmt.Fprintln`). -/
def Error (w : ResponseWriter) (error : String) (code : Nat) : ResponseWriter :=
  let h := Header.Del w.header "Content-Length"
  let h := Header.Set h "Content-Type" "text/plain; charset=utf-8"
  let h := Header.Set h "X-Content-Type-Options" "nosniff"
  ResponseWriter.Write (ResponseWriter.WriteHeader { w with header := h } code) (error ++ "\n")

/-- Function `http.NotFound(w, r)`. -/
def NotFound (w : ResponseWriter) (_r : Request) : ResponseWriter :=
  Error w "404 page not found" StatusNotFound

/-- Function `chi.URLParam(r, key)`: the value of the last route parameter bound under
`key`, or the empty string. -/
def URLParam (r : Request) (key : String) : String :=
  match r.URLParams.reverse.find? (fun kv => kv.1 == key) with
  | some kv => kv.2
  | none => ""

/-- Everything a handler can read or change besides the response writer: the
package-level variable `users`, and the state `ext` of the collaborators
(the enforcer, anything a wrapped handler keeps). -/
structure World (σ : Type) where
  users : List User
  ext : σ

/-- An `http.Handler`: `ServeHTTP(w, r)` in state-passing style. -/
abbrev Handler (σ : Type) := ResponseWriter → Request → World σ → ResponseWriter × World σ

/-- The method `Enforce(subject, resource, action)` of the enforcer: the pair
`(allowed, err)`, `err = none` for Go's `nil`, and the collaborator state after
the call. -/
abbrev Enforcer (σ : Type) := String → String → String → σ → (Bool × Option String) × σ

/-! ## The middleware -/

/-- Casbin middleware to enforce role-based access control (`main.go`, lines 82-103). -/
def casbinMiddleware {σ : Type} (role : String) (enforcer : Enforcer σ) (next : Handler σ) :
    Handler σ :=
  fun w r s =>
    let subject := role
    let resource := r.Path
    let action := r.Method
    match enforcer subject resource action s.ext with
    | ((allowed, err), ext1) =>
      let s1 : World σ := { s with ext := ext1 }
      if err.isSome then
        (Error w "InternalServerError" StatusInternalServerError, s1)
      else if !allowed then
        (Error w "Forbidden" StatusForbidden, s1)
      else
        next w r s1

/-! ## Handler functions -/

/-- The line `fmt.Fprintf(w, "ID: %s, Username: %s, Role: %s\n", ...)` prints for a user. -/
def userLine (user : User) : String :=
  "ID: " ++ user.ID ++ ", Username: " ++ user.Username ++ ", Role: " ++ user.Role ++ "\n"

/-- Handler `getAllUsers` (`main.go`, lines 106-112). -/
def getAllUsers {σ : Type} : Handler σ :=
  fun w _r s =>
    let w1 := w.Write "List of all users:\n"
    (s.users.foldl (fun acc user => acc.Write (userLine user)) w1, s)

/-- The `for _, user := range users` loop of `getUserByID` with its early
return, falling through to `http.NotFound`. -/
def getUserByIDLoop (w : ResponseWriter) (r : Request) (id : String) : List User → ResponseWriter
  | [] => NotFound w r
  | user :: rest =>
    if user.ID = id then
      (w.Write "User found:\n").Write (userLine user)
    else
      getUserByIDLoop w r id rest

/-- Handler `getUserByID` (`main.go`, lines 114-126). -/
def getUserByID {σ : Type} : Handler σ :=
  fun w r s =>
    let id := URLParam r "id"
    (getUserByIDLoop w r id s.users, s)

/-- Handler `createUser` (`main.go`, lines 128-133). -/
def createUser {σ : Type} : Handler σ :=
  fun w _r s => (Error w "Not implemented" StatusNotImplemented, s)

/-- Handler `updateUser` (`main.go`, lines 135-140). -/
def updateUser {σ : Type} : Handler σ :=
  fun w _r s => (Error w "Not implemented" StatusNotImplemented, s)

/-- Handler `deleteUser` (`main.go`, lines 142-147). -/
def deleteUser {σ : Type} : Handler σ :=
  fun w _r s => (Error w "Not implemented" StatusNotImplemented, s)

/-! ## Routing (`chi`) -/

/-- An endpoint of the routing tree: the handler stored for a method under a pattern. -/
structure Endpoint (σ : Type) where
  method : String
  pattern : String
  handler : Handler σ

/-- A `chi.Mux`: whether it is an inline group, its middleware stack, and the
routing tree, which a group shares with the router it was opened on. -/
structure Mux (σ : Type) where
  inline : Bool
  middlewares : List (Handler σ → Handler σ)
  tree : List (Endpoint σ)

/-- Function `chi.NewRouter()`: an empty router. -/
def NewRouter {σ : Type} : Mux σ := { inline := false, middlewares := [], tree := [] }

/-- Function `chi.Chain(middlewares...).Handler(endpoint)`: the first middleware is outermost. -/
def Chain {σ : Type} (middlewares : List (Handler σ → Handler σ)) (endpoint : Handler σ) :
    Handler σ :=
  middlewares.foldr (fun m h => m h) endpoint

/-- Method `tree.InsertRoute(method, pattern, handler)`: inserts the endpoint, or
updates the handler when the tree already holds one for this method under
this pattern. -/
def InsertRoute {σ : Type} (tree : List (Endpoint σ)) (method pattern : String)
    (handler : Handler σ) : List (Endpoint σ) :=
  if tree.any (fun e => e.method = method ∧ e.pattern = pattern) then
    tree.map (fun e =>
      if e.method = method ∧ e.pattern = pattern then { e with handler := handler } else e)
  else
    tree ++ [{ method := method, pattern := pattern, handler := handler }]

/-- Method `mx.Use(middleware)`: push a middleware on the stack. -/
def Mux.Use {σ : Type} (mx : Mux σ) (middleware : Handler σ → Handler σ) : Mux σ :=
  { mx with middlewares := mx.middlewares ++ [middleware] }

/-- Method `mx.handle(method, pattern, handler)`: an inline group wraps the handler in
its middleware stack before the endpoint goes into the tree. -/
def Mux.handle {σ : Type} (mx : Mux σ) (method pattern : String) (handler : Handler σ) : Mux σ :=
  let h := if mx.inline then Chain mx.middlewares handler else handler
  { mx with tree := InsertRoute mx.tree method pattern h }

/-- Method `mx.Get(pattern, h)`. -/
def Mux.Get {σ : Type} (mx : Mux σ) (pattern : String) (h : Handler σ) : Mux σ :=
  mx.handle "GET" pattern h

/-- Method `mx.Post(pattern, h)`. -/
def Mux.Post {σ : Type} (mx : Mux σ) (pattern : String) (h : Handler σ) : Mux σ :=
  mx.handle "POST" pattern h

/-- Method `mx.Put(pattern, h)`. -/
def Mux.Put {σ : Type} (mx : Mux σ) (pattern : String) (h : Handler σ) : Mux σ :=
  mx.handle "PUT" pattern h

/-- Method `mx.Delete(pattern, h)`. -/
def Mux.Delete {σ : Type} (mx : Mux σ) (pattern : String) (h : Handler σ) : Mux σ :=
  mx.handle "DELETE" pattern h

/-- Method `mx.With()`: a fresh inline mux on the same tree; it inherits the stack of
an inline parent only. -/
def Mux.With {σ : Type} (mx : Mux σ) (middlewares : List (Handler σ → Handler σ)) : Mux σ :=
  { inline := true,
    middlewares := (if mx.inline then mx.middlewares else []) ++ middlewares,
    tree := mx.tree }

/-- Method `mx.Group(fn)`: runs `fn` on a fresh inline mux; the routes it registers
land in the tree of `mx`. -/
def Mux.Group {σ : Type} (mx : Mux σ) (fn : Mux σ → Mux σ) : Mux σ :=
  { mx with tree := (fn (mx.With [])).tree }

/-- Split a path at every `/`. -/
def splitSlash : List Char → List (List Char)
  | [] => [[]]
  | c :: cs =>
    if c = '/' then [] :: splitSlash cs
    else
      match splitSlash cs with
      | seg :: rest => (c :: seg) :: rest
      | [] => [[c]]

/-- The key of a `{key}` pattern segment, if the segment is one. -/
def paramKey (seg : List Char) : Option String :=
  match seg with
  | '{' :: rest =>
    match rest.reverse with
    | '}' :: yek => some (String.mk yek.reverse)
    | _ => none
  | _ => none

/-- Match pattern segments against path segments: a static segment matches
itself, a `{key}` segment binds one non-empty path segment. -/
def matchSegments : List (List Char) → List (List Char) → Option (List (String × String))
  | [], [] => some []
  | p :: ps, x :: xs =>
    match paramKey p with
    | some key =>
      if x = [] then none
      else (matchSegments ps xs).map (fun m => (key, String.mk x) :: m)
    | none => if p = x then matchSegments ps xs else none
  | _, _ => none

/-- Route parameters bound when `path` matches `pattern`. -/
def matchPattern (pattern path : String) : Option (List (String × String)) :=
  matchSegments (splitSlash pattern.data) (splitSlash path.data)

/-- The endpoint for `method` whose pattern matches `path`, with the bound
parameters.  The patterns registered in `main` never match the same path twice,
so the order of the search does not matter there. -/
def findRoute {σ : Type} (tree : List (Endpoint σ)) (method path : String) :
    Option (Handler σ × List (String × String)) :=
  match tree with
  | [] => none
  | e :: rest =>
    if e.method = method then
      match matchPattern e.pattern path with
      | some params => some (e.handler, params)
      | none => findRoute rest method path
    else findRoute rest method path

/-- The methods `chi` routes. -/
def methodMap : List String :=
  ["CONNECT", "DELETE", "GET", "HEAD", "OPTIONS", "PATCH", "POST", "PUT", "TRACE"]

/-- The default method-not-allowed handler of `chi`. -/
def methodNotAllowedHandler {σ : Type} : Handler σ :=
  fun w _r s => ((w.WriteHeader StatusMethodNotAllowed).Write "", s)

/-- Dispatch of a request by the router (`mx.ServeHTTP`).  The route path is
`r.URL.RawPath` when it is set and `r.URL.Path` otherwise; the endpoint found
for the method and route path runs with the bound route parameters; a path known
under another method only gives 405, an unknown path 404. -/
def Mux.ServeHTTP {σ : Type} (mx : Mux σ) : Handler σ :=
  fun w r s =>
    let routePath := if r.RawPath ≠ "" then r.RawPath else r.Path
    let routePath := if routePath = "" then "/" else routePath
    if r.Method ∈ methodMap then
      match findRoute mx.tree r.Method routePath with
      | some (h, params) => h w { r with URLParams := params } s
      | none =>
        if mx.tree.any (fun e => (matchPattern e.pattern routePath).isSome) then
          methodNotAllowedHandler w r s
        else
          (NotFound w r, s)
    else
      methodNotAllowedHandler w r s

/-- The router `main` builds (`main.go`, lines 36-60) for a given enforcer. -/
def mainRouter {σ : Type} (enforcer : Enforcer σ) : Mux σ :=
  let r : Mux σ := NewRouter
  -- Public routes accessible by all users (read-only)
  let r := r.Group (fun r =>
    let r := r.Use (casbinMiddleware "user" enforcer)
    let r := r.Get "/users" getAllUsers
    let r := r.Get "/users/{id}" getUserByID
    r)
  -- Protected routes accessible only by admins
  let r := r.Group (fun r =>
    let r := r.Use (casbinMiddleware "admin" enforcer)
    let r := r.Get "/users" getAllUsers
    let r := r.Get "/users/{id}" getUserByID
    let r := r.Post "/users" createUser
    let r := r.Put "/users/{id}" updateUser
    let r := r.Delete "/users/{id}" deleteUser
    r)
  r

/-! ## Observing calls and serving requests -/

/-- Collaborator state extended with a record of the calls made: the triples
handed to `Enforce`, and the arguments of each `ServeHTTP` call received by the
wrapped handler. -/
structure Probe (σ : Type) where
  enforced : List (String × String × String)
  served : List (ResponseWriter × Request)
  inner : σ

/-- The enforcer `e`, recording each triple it is consulted with. -/
def probeEnforcer {σ : Type} (e : Enforcer σ) : Enforcer (Probe σ) :=
  fun sub obj act p =>
    match e sub obj act p.inner with
    | (res, st) => (res, { p with enforced := p.enforced ++ [(sub, obj, act)], inner := st })

/-- The handler `h`, recording the writer and the request of each invocation. -/
def probeHandler {σ : Type} (h : Handler σ) : Handler (Probe σ) :=
  fun w r s =>
    match h w r { users := s.users, ext := s.ext.inner } with
    | (w1, s1) =>
      (w1, { users := s1.users,
             ext := { s.ext with served := s.ext.served ++ [(w, r)], inner := s1.ext } })

/-- Serving one request: the chain runs on a fresh response writer. -/
def serve {σ : Type} (h : Handler σ) (r : Request) (s : World σ) : ResponseWriter × World σ :=
  h newResponse r s

/-- Serving the same request `n` times in sequence: the responses in order,
and the world after the last one. -/
def serveN {σ : Type} (h : Handler σ) (r : Request) : Nat → World σ → List ResponseWriter × World σ
  | 0, s => ([], s)
  | n + 1, s =>
    match serve h r s with
    | (w, s1) =>
      match serveN h r n s1 with
      | (ws, s2) => (w :: ws, s2)

/-! ## Sample providers and requests -/

/-- A provider giving the same answer `(allowed, err)` for every triple. -/
def constEnforcer {σ : Type} (allowed : Bool) (err : Option String) : Enforcer σ :=
  fun _ _ _ st => ((allowed, err), st)

/-- A provider deciding by a table of granted triples (policy lines
`p, sub, obj, act`), never failing. -/
def tableEnforcer {σ : Type} (policy : List (String × String × String)) : Enforcer σ :=
  fun sub obj act st => ((decide ((sub, obj, act) ∈ policy), none), st)

/-- The world at start-up, with nothing recorded yet. -/
def startProbe : World (Probe Unit) :=
  { users := users, ext := { enforced := [], served := [], inner := () } }

/-- The world at start-up. -/
def startWorld : World Unit := { users := users, ext := () }

/-- The request `GET /users`. -/
def reqListUsers : Request :=
  { Method := "GET", Path := "/users", RawPath := "", URLParams := [], Cancelled := false,
    Body := "" }

/-- The request `POST /users`. -/
def reqCreateUser : Request :=
  { Method := "POST", Path := "/users", RawPath := "", URLParams := [], Cancelled := false,
    Body := "name=eve" }

/-- The request `DELETE /users/1`, routed. -/
def reqDeleteUser : Request :=
  { Method := "DELETE", Path := "/users/1", RawPath := "",
    URLParams := [("id", "1")], Cancelled := false,
    Body := "" }

/-- The request `GET /users/2`, routed, its context already cancelled. -/
def reqCancelled : Request :=
  { Method := "GET", Path := "/users/2", RawPath := "",
    URLParams := [("id", "2")], Cancelled := true,
    Body := "" }

/-- The request `GET /users/2`, routed. -/
def reqGetUser : Request :=
  { Method := "GET", Path := "/users/2", RawPath := "",
    URLParams := [("id", "2")], Cancelled := false,
    Body := "" }

/-- The request `GET /users/999`, routed. -/
def reqMissingUser : Request :=
  { Method := "GET", Path := "/users/999", RawPath := "",
    URLParams := [("id", "999")], Cancelled := false,
    Body := "" }

/-! ## Response-writer lemmas -/

theorem WriteHeader_status_of_none (w : ResponseWriter) (code : Nat) (hw : w.status = none) :
    (w.WriteHeader code).status = some code := by
  simp [ResponseWriter.WriteHeader, hw]

theorem WriteHeader_status_of_some (w : ResponseWriter) (code c : Nat) (hw : w.status = some c) :
    w.WriteHeader code = w := by
  simp [ResponseWriter.WriteHeader, hw]

theorem WriteHeader_body (w : ResponseWriter) (code : Nat) :
    (w.WriteHeader code).body = w.body := by
  unfold ResponseWriter.WriteHeader
  cases w.status <;> rfl

theorem Write_body (w : ResponseWriter) (p : String) : (w.Write p).body = w.body ++ p := by
  simp [ResponseWriter.Write, WriteHeader_body]

theorem Write_status_of_none (w : ResponseWriter) (p : String) (hw : w.status = none) :
    (w.Write p).status = some StatusOK := by
  simp [ResponseWriter.Write, WriteHeader_status_of_none w StatusOK hw]

theorem Write_status_of_some (w : ResponseWriter) (p : String) (c : Nat) (hw : w.status = some c) :
    (w.Write p).status = some c := by
  simp [ResponseWriter.Write, WriteHeader_status_of_some w StatusOK c hw, hw]

theorem Error_status (w : ResponseWriter) (msg : String) (code : Nat) (hw : w.status = none) :
    (Error w msg code).status = some code := by
  simp [Error, ResponseWriter.Write, ResponseWriter.WriteHeader, hw]

theorem Error_statusCode (w : ResponseWriter) (msg : String) (code : Nat) (hw : w.status = none) :
    (Error w msg code).statusCode = code := by
  simp [ResponseWriter.statusCode, Error_status w msg code hw]

theorem Error_body (w : ResponseWriter) (msg : String) (code : Nat) :
    (Error w msg code).body = w.body ++ (msg ++ "\n") := by
  simp [Error, Write_body, WriteHeader_body]

/-! ## The three branches of the middleware -/

theorem casbinMiddleware_of_error {σ : Type} (role : String) (e : Enforcer σ) (next : Handler σ)
    (w : ResponseWriter) (r : Request) (s : World σ) (b : Bool) (msg : String)
    (h : (e role r.Path r.Method s.ext).1 = (b, some msg)) :
    casbinMiddleware role e next w r s
      = (Error w "InternalServerError" StatusInternalServerError,
         { s with ext := (e role r.Path r.Method s.ext).2 }) := by
  rcases hres : e role r.Path r.Method s.ext with ⟨⟨allowed, err⟩, st⟩
  rw [hres] at h
  simp only [Prod.mk.injEq] at h
  simp [casbinMiddleware, hres, h.2]

theorem casbinMiddleware_of_deny {σ : Type} (role : String) (e : Enforcer σ) (next : Handler σ)
    (w : ResponseWriter) (r : Request) (s : World σ)
    (h : (e role r.Path r.Method s.ext).1 = (false, none)) :
    casbinMiddleware role e next w r s
      = (Error w "Forbidden" StatusForbidden,
         { s with ext := (e role r.Path r.Method s.ext).2 }) := by
  rcases hres : e role r.Path r.Method s.ext with ⟨⟨allowed, err⟩, st⟩
  rw [hres] at h
  simp only [Prod.mk.injEq] at h
  simp [casbinMiddleware, hres, h.1, h.2]

theorem casbinMiddleware_of_allow {σ : Type} (role : String) (e : Enforcer σ) (next : Handler σ)
    (w : ResponseWriter) (r : Request) (s : World σ)
    (h : (e role r.Path r.Method s.ext).1 = (true, none)) :
    casbinMiddleware role e next w r s
      = next w r { s with ext := (e role r.Path r.Method s.ext).2 } := by
  rcases hres : e role r.Path r.Method s.ext with ⟨⟨allowed, err⟩, st⟩
  rw [hres] at h
  simp only [Prod.mk.injEq] at h
  simp [casbinMiddleware, hres, h.1, h.2]

theorem probeEnforcer_fst {σ : Type} (e : Enforcer σ) (sub obj act : String) (p : Probe σ) :
    (probeEnforcer e sub obj act p).1 = (e sub obj act p.inner).1 := by
  simp [probeEnforcer]

theorem probeEnforcer_snd {σ : Type} (e : Enforcer σ) (sub obj act : String) (p : Probe σ) :
    (probeEnforcer e sub obj act p).2
      = { p with enforced := p.enforced ++ [(sub, obj, act)], inner := (e sub obj act p.inner).2 } := by
  simp [probeEnforcer]

/-! ## Claims -/

/-- C1: when the provider's decision for (role, request path, request method) is
Deny, the handler returned by `casbinMiddleware` never invokes the wrapped
handler (its invocation record is unchanged, and the outcome is the same for
every wrapped handler) and the response status is 403. -/
theorem casbinMiddleware_deny_forbidden {σ : Type} (role : String) (e : Enforcer σ)
    (next : Handler σ) (w : ResponseWriter) (r : Request) (s : World (Probe σ))
    (hw : w.status = none)
    (hdeny : (e role r.Path r.Method s.ext.inner).1 = (false, none)) :
    (casbinMiddleware role (probeEnforcer e) (probeHandler next) w r s).2.ext.served
        = s.ext.served
      ∧ (casbinMiddleware role (probeEnforcer e) (probeHandler next) w r s).1.statusCode = 403
      ∧ (casbinMiddleware role (probeEnforcer e) (probeHandler next) w r s).1.body
          = w.body ++ "Forbidden\n"
      ∧ (casbinMiddleware role e next w r { users := s.users, ext := s.ext.inner }).1
          = Error w "Forbidden" StatusForbidden := by
  have hp : (probeEnforcer e role r.Path r.Method s.ext).1 = (false, none) := by
    rw [probeEnforcer_fst]; exact hdeny
  rw [casbinMiddleware_of_deny role (probeEnforcer e) (probeHandler next) w r s hp,
    casbinMiddleware_of_deny role e next w r { users := s.users, ext := s.ext.inner } hdeny]
  refine ⟨?_, ?_, ?_, rfl⟩
  · simp [probeEnforcer_snd]
  · exact Error_statusCode w _ _ hw
  · exact Error_body w _ _

theorem casbinMiddleware_deny_forbidden_witness :
    newResponse.status = none
      ∧ ((constEnforcer false none : Enforcer Unit) "user" reqCreateUser.Path reqCreateUser.Method
          startProbe.ext.inner).1 = (false, none)
      ∧ (casbinMiddleware "user" (probeEnforcer (constEnforcer false none))
          (probeHandler createUser) newResponse reqCreateUser startProbe).2.ext.served = []
      ∧ (casbinMiddleware "user" (probeEnforcer (constEnforcer false none))
          (probeHandler createUser) newResponse reqCreateUser startProbe).1.statusCode = 403 :=
  have h := casbinMiddleware_deny_forbidden "user" (constEnforcer false none) createUser
    newResponse reqCreateUser startProbe rfl rfl
  ⟨rfl, rfl, h.1, h.2.1⟩

/-- C2: when the provider call fails with an error, whatever boolean accompanies
it, `casbinMiddleware` never invokes the wrapped handler, the response status
is 500, and what is written does not depend on the error: the body gains the
fixed line "InternalServerError", and any two failing provider calls (here with
provider `e` in world `s` and provider `e2` in world `s2`) leave the same
response. -/
theorem casbinMiddleware_error_internal {σ : Type} (role : String) (e e2 : Enforcer σ)
    (next : Handler σ) (w : ResponseWriter) (r : Request) (s s2 : World (Probe σ))
    (b b2 : Bool) (msg msg2 : String)
    (hw : w.status = none)
    (herr : (e role r.Path r.Method s.ext.inner).1 = (b, some msg))
    (herr2 : (e2 role r.Path r.Method s2.ext.inner).1 = (b2, some msg2)) :
    (casbinMiddleware role (probeEnforcer e) (probeHandler next) w r s).2.ext.served
        = s.ext.served
      ∧ (casbinMiddleware role (probeEnforcer e) (probeHandler next) w r s).1.statusCode = 500
      ∧ (casbinMiddleware role (probeEnforcer e) (probeHandler next) w r s).1.body
          = w.body ++ "InternalServerError\n"
      ∧ (casbinMiddleware role (probeEnforcer e) (probeHandler next) w r s).1
          = (casbinMiddleware role (probeEnforcer e2) (probeHandler next) w r s2).1 := by
  have hp : (probeEnforcer e role r.Path r.Method s.ext).1 = (b, some msg) := by
    rw [probeEnforcer_fst]; exact herr
  have hp2 : (probeEnforcer e2 role r.Path r.Method s2.ext).1 = (b2, some msg2) := by
    rw [probeEnforcer_fst]; exact herr2
  rw [casbinMiddleware_of_error role (probeEnforcer e) (probeHandler next) w r s b msg hp,
    casbinMiddleware_of_error role (probeEnforcer e2) (probeHandler next) w r s2 b2 msg2 hp2]
  refine ⟨?_, ?_, ?_, rfl⟩
  · simp [probeEnforcer_snd]
  · exact Error_statusCode w _ _ hw
  · exact Error_body w _ _

theorem casbinMiddleware_error_internal_witness :
    (casbinMiddleware "admin" (probeEnforcer (constEnforcer true (some "policy file corrupt")))
        (probeHandler getAllUsers) newResponse reqListUsers startProbe).2.ext.served = []
      ∧ (casbinMiddleware "admin" (probeEnforcer (constEnforcer true (some "policy file corrupt")))
        (probeHandler getAllUsers) newResponse reqListUsers startProbe).1.statusCode = 500
      ∧ (casbinMiddleware "admin" (probeEnforcer (constEnforcer true (some "policy file corrupt")))
        (probeHandler getAllUsers) newResponse reqListUsers startProbe).1
        = (casbinMiddleware "admin" (probeEnforcer (constEnforcer false (some "matcher: eval")))
        (probeHandler getAllUsers) newResponse reqListUsers startProbe).1 :=
  have h := casbinMiddleware_error_internal "admin"
    (constEnforcer true (some "policy file corrupt")) (constEnforcer false (some "matcher: eval"))
    getAllUsers newResponse reqListUsers startProbe startProbe true false
    "policy file corrupt" "matcher: eval" rfl rfl rfl
  ⟨h.1, h.2.1, h.2.2.2⟩

/-- C3: when the provider's decision is Allow, `casbinMiddleware` invokes the
wrapped handler exactly once, with the same response writer and request (the
invocation record gains the single entry `(w, r)`), and the resulting response
and world are exactly what the wrapped handler produces on its own, run after
the provider call: the middleware writes nothing before or after it. -/
theorem casbinMiddleware_allow_passes {σ : Type} (role : String) (e : Enforcer σ)
    (next : Handler σ) (w : ResponseWriter) (r : Request) (s : World (Probe σ))
    (hallow : (e role r.Path r.Method s.ext.inner).1 = (true, none)) :
    (casbinMiddleware role (probeEnforcer e) (probeHandler next) w r s).2.ext.served
        = s.ext.served ++ [(w, r)]
      ∧ (casbinMiddleware role (probeEnforcer e) (probeHandler next) w r s).1
          = (next w r { users := s.users, ext := (e role r.Path r.Method s.ext.inner).2 }).1
      ∧ casbinMiddleware role e next w r { users := s.users, ext := s.ext.inner }
          = next w r { users := s.users, ext := (e role r.Path r.Method s.ext.inner).2 } := by
  have hp : (probeEnforcer e role r.Path r.Method s.ext).1 = (true, none) := by
    rw [probeEnforcer_fst]; exact hallow
  rw [casbinMiddleware_of_allow role (probeEnforcer e) (probeHandler next) w r s hp,
    casbinMiddleware_of_allow role e next w r { users := s.users, ext := s.ext.inner } hallow]
  refine ⟨?_, ?_, rfl⟩
  · simp [probeHandler, probeEnforcer_snd]
  · simp [probeHandler, probeEnforcer_snd]

theorem casbinMiddleware_allow_passes_witness :
    (casbinMiddleware "admin" (probeEnforcer (constEnforcer true none))
        (probeHandler getAllUsers) newResponse reqListUsers startProbe).2.ext.served
        = [(newResponse, reqListUsers)]
      ∧ (casbinMiddleware "admin" (probeEnforcer (constEnforcer true none))
        (probeHandler getAllUsers) newResponse reqListUsers startProbe).1
        = (getAllUsers newResponse reqListUsers startWorld).1 :=
  have h := casbinMiddleware_allow_passes "admin" (constEnforcer true none) getAllUsers
    newResponse reqListUsers startProbe rfl
  ⟨h.1, h.2.1⟩

/-- C4: for every request, the handler built by `casbinMiddleware role enforcer`
consults the provider exactly once, with the triple (role, request URL path,
request HTTP method): whatever the provider answers and whatever the wrapped
handler does, the record of triples handed to `Enforce` gains exactly that
one entry. -/
theorem casbinMiddleware_consults_once {σ : Type} (role : String) (e : Enforcer σ)
    (next : Handler σ) (w : ResponseWriter) (r : Request) (s : World (Probe σ)) :
    (casbinMiddleware role (probeEnforcer e) (probeHandler next) w r s).2.ext.enforced
      = s.ext.enforced ++ [(role, r.Path, r.Method)] := by
  rcases hres : e role r.Path r.Method s.ext.inner with ⟨⟨allowed, err⟩, st⟩
  cases err with
  | some msg =>
    have hp : (probeEnforcer e role r.Path r.Method s.ext).1 = (allowed, some msg) := by
      rw [probeEnforcer_fst, hres]
    rw [casbinMiddleware_of_error role (probeEnforcer e) (probeHandler next) w r s allowed msg hp]
    simp [probeEnforcer_snd]
  | none =>
    cases allowed with
    | false =>
      have hp : (probeEnforcer e role r.Path r.Method s.ext).1 = (false, none) := by
        rw [probeEnforcer_fst, hres]
      rw [casbinMiddleware_of_deny role (probeEnforcer e) (probeHandler next) w r s hp]
      simp [probeEnforcer_snd]
    | true =>
      have hp : (probeEnforcer e role r.Path r.Method s.ext).1 = (true, none) := by
        rw [probeEnforcer_fst, hres]
      rw [casbinMiddleware_of_allow role (probeEnforcer e) (probeHandler next) w r s hp]
      simp [probeHandler, probeEnforcer_snd]

/-! ## The handlers -/

theorem getUserByIDLoop_of_absent (w : ResponseWriter) (r : Request) (id : String)
    (us : List User) (h : ∀ u ∈ us, u.ID ≠ id) :
    getUserByIDLoop w r id us = NotFound w r := by
  induction us with
  | nil => rfl
  | cons u rest ih =>
    have hu : u.ID ≠ id := h u (List.mem_cons_self u rest)
    have hrest : ∀ v ∈ rest, v.ID ≠ id := fun v hv => h v (List.mem_cons_of_mem u hv)
    simp [getUserByIDLoop, hu, ih hrest]

theorem getUserByIDLoop_of_first (w : ResponseWriter) (r : Request) (id : String)
    (pre : List User) (u : User) (post : List User)
    (hu : u.ID = id) (hpre : ∀ v ∈ pre, v.ID ≠ id) :
    getUserByIDLoop w r id (pre ++ u :: post)
      = (w.Write "User found:\n").Write (userLine u) := by
  induction pre with
  | nil => simp [getUserByIDLoop, hu]
  | cons v rest ih =>
    have hv : v.ID ≠ id := hpre v (List.mem_cons_self v rest)
    have hrest : ∀ x ∈ rest, x.ID ≠ id := fun x hx => hpre x (List.mem_cons_of_mem v hx)
    simp [getUserByIDLoop, hv, ih hrest]

theorem getUserByIDLoop_status (w : ResponseWriter) (r : Request) (id : String)
    (us : List User) (hw : w.status = none) :
    (getUserByIDLoop w r id us).status
      = if ∀ u ∈ us, u.ID ≠ id then some StatusNotFound else some StatusOK := by
  induction us with
  | nil => simp [getUserByIDLoop, NotFound, Error_status w _ _ hw]
  | cons u rest ih =>
    by_cases hu : u.ID = id
    · have hex : ¬ ∀ v ∈ u :: rest, v.ID ≠ id := fun hall => hall u (List.mem_cons_self u rest) hu
      rw [if_neg hex]
      simp [getUserByIDLoop, hu,
        Write_status_of_some _ _ StatusOK (Write_status_of_none w "User found:\n" hw)]
    · simp only [getUserByIDLoop, hu, if_false, ih]
      by_cases hall : ∀ v ∈ rest, v.ID ≠ id
      · have : ∀ v ∈ u :: rest, v.ID ≠ id := by
          intro v hv
          rcases List.mem_cons.mp hv with rfl | hv
          · exact hu
          · exact hall v hv
        rw [if_pos hall, if_pos this]
      · have : ¬ ∀ v ∈ u :: rest, v.ID ≠ id :=
          fun h => hall (fun v hv => h v (List.mem_cons_of_mem u hv))
        rw [if_neg hall, if_neg this]

/-- C5: `getUserByID` responds 404 if and only if no user in the user list has
the requested ID; otherwise it responds 200 with the body "User found:"
followed by the line "ID: <ID>, Username: <Username>, Role: <Role>" of the
first user in the list whose ID equals the id, and nothing else.  In
particular id "999" over the fixed three-user list gives 404. -/
theorem getUserByID_found_or_404 {σ : Type} (id : String) (w : ResponseWriter) (r : Request)
    (s : World σ) (hw : w.status = none) (hb : w.body = "") (hid : URLParam r "id" = id) :
    ((getUserByID w r s).1.statusCode = 404 ↔ ∀ u ∈ s.users, u.ID ≠ id)
      ∧ (∀ (pre : List User) (u : User) (post : List User),
          s.users = pre ++ u :: post → u.ID = id → (∀ v ∈ pre, v.ID ≠ id) →
            (getUserByID w r s).1.statusCode = 200
              ∧ (getUserByID w r s).1.body
                  = "User found:\n" ++ ("ID: " ++ u.ID ++ ", Username: " ++ u.Username
                      ++ ", Role: " ++ u.Role ++ "\n"))
      ∧ (id = "999" →
          (getUserByID w r { s with users := users }).1.statusCode = 404) := by
  refine ⟨?_, ?_, ?_⟩
  · simp only [getUserByID, hid, ResponseWriter.statusCode,
      getUserByIDLoop_status w r id s.users hw]
    by_cases hall : ∀ u ∈ s.users, u.ID ≠ id
    · rw [if_pos hall]
      exact ⟨fun _ => hall, fun _ => rfl⟩
    · rw [if_neg hall]
      exact ⟨fun h => absurd h (by decide), fun h => absurd h hall⟩
  · intro pre u post hs hu hpre
    simp only [getUserByID, hid, hs, getUserByIDLoop_of_first w r id pre u post hu hpre]
    refine ⟨?_, ?_⟩
    · simp [ResponseWriter.statusCode,
        Write_status_of_some _ _ StatusOK (Write_status_of_none w "User found:\n" hw), StatusOK]
    · simp only [Write_body, hb, userLine]
      rfl
  · intro h999
    subst h999
    have habs : ∀ u ∈ users, u.ID ≠ "999" := by decide
    simp only [getUserByID, hid, getUserByIDLoop_of_absent w r "999" users habs, NotFound]
    exact Error_statusCode w _ _ hw

theorem getUserByID_found_or_404_witness :
    ((getUserByID newResponse reqMissingUser startWorld).1.statusCode = 404
        ↔ ∀ u ∈ startWorld.users, u.ID ≠ "999")
      ∧ (getUserByID newResponse reqMissingUser startWorld).1.statusCode = 404
      ∧ (getUserByID newResponse reqGetUser startWorld).1.statusCode = 200
      ∧ (getUserByID newResponse reqGetUser startWorld).1.body
          = "User found:\nID: 2, Username: user1, Role: user\n" :=
  have h := getUserByID_found_or_404 "999" newResponse reqMissingUser startWorld rfl rfl rfl
  have h2 := (getUserByID_found_or_404 "2" newResponse reqGetUser startWorld rfl rfl rfl).2.1
    [⟨"1", "admin", "admin"⟩] ⟨"2", "user1", "user"⟩ [⟨"3", "user2", "user"⟩] rfl rfl
    (by decide)
  ⟨h.1, h.2.2 rfl, h2.1, h2.2⟩

/-- C6: each of `createUser`, `updateUser` and `deleteUser` responds with status
501 and the fixed body "Not implemented" (written as one line by `http.Error`),
the same for every request, and changes nothing else. -/
theorem stubs_not_implemented {σ : Type} (h : Handler σ)
    (hh : h = createUser ∨ h = updateUser ∨ h = deleteUser)
    (w : ResponseWriter) (r r2 : Request) (s : World σ)
    (hw : w.status = none) (hb : w.body = "") :
    (h w r s).1.statusCode = 501
      ∧ (h w r s).1.body = "Not implemented\n"
      ∧ (h w r s).1 = (h w r2 s).1
      ∧ (h w r s).2 = s := by
  rcases hh with rfl | rfl | rfl
  · exact ⟨Error_statusCode w _ _ hw, by simp [createUser, Error_body, hb], rfl, rfl⟩
  · exact ⟨Error_statusCode w _ _ hw, by simp [updateUser, Error_body, hb], rfl, rfl⟩
  · exact ⟨Error_statusCode w _ _ hw, by simp [deleteUser, Error_body, hb], rfl, rfl⟩

theorem stubs_not_implemented_witness :
    (deleteUser newResponse reqDeleteUser startWorld).1.statusCode = 501
      ∧ (deleteUser newResponse reqDeleteUser startWorld).1.body = "Not implemented\n"
      ∧ (deleteUser newResponse reqDeleteUser startWorld).1
          = (deleteUser newResponse reqCreateUser startWorld).1 :=
  have h := stubs_not_implemented (deleteUser : Handler Unit) (Or.inr (Or.inr rfl))
    newResponse reqDeleteUser reqCreateUser startWorld rfl rfl
  ⟨h.1, h.2.1, h.2.2.1⟩

/-! ## Routing through `main` -/

/-- With both groups registered, `GET /users` reaches `getAllUsers` behind the
middleware of the group registered last, the "admin" one. -/
theorem mainRouter_list_users {σ : Type} (e : Enforcer σ) (w : ResponseWriter) (s : World σ) :
    (mainRouter e).ServeHTTP w reqListUsers s
      = casbinMiddleware "admin" e getAllUsers w reqListUsers s := by
  rfl

/-- When the provider allows ("admin", "/users", "GET"), `GET /users` dispatched
through the routes of `main` gets status 200 and the header line followed by
one line per user, in list order. -/
theorem mainRouter_list_users_admin_allowed {σ : Type} (e : Enforcer σ) (ext : σ)
    (hallow : (e "admin" "/users" "GET" ext).1 = (true, none)) :
    ((mainRouter e).ServeHTTP newResponse reqListUsers { users := users, ext := ext }).1.statusCode
        = 200
      ∧ ((mainRouter e).ServeHTTP newResponse reqListUsers { users := users, ext := ext }).1.body
        = "List of all users:\nID: 1, Username: admin, Role: admin\n"
            ++ "ID: 2, Username: user1, Role: user\nID: 3, Username: user2, Role: user\n" := by
  rw [mainRouter_list_users,
    casbinMiddleware_of_allow "admin" e getAllUsers newResponse reqListUsers
      { users := users, ext := ext } hallow]
  exact ⟨rfl, rfl⟩

/-- C7, evaluated on the code: under a provider that grants exactly
("user", "/users", "GET"), the request `GET /users` dispatched through the
routes of `main` is answered by the "admin" group, whose triple the provider
does not grant: the status is 403 and the body is the line "Forbidden", not
the listing. -/
theorem mainRouter_list_users_user_policy :
    ((tableEnforcer [("user", "/users", "GET")] : Enforcer Unit) "user" "/users" "GET" ()).1
        = (true, none)
      ∧ ((mainRouter (tableEnforcer [("user", "/users", "GET")])).ServeHTTP
          newResponse reqListUsers startWorld).1.statusCode = 403
      ∧ ((mainRouter (tableEnforcer [("user", "/users", "GET")])).ServeHTTP
          newResponse reqListUsers startWorld).1.body = "Forbidden\n" := by
  refine ⟨?_, ?_, ?_⟩ <;> decide

/-! ## The stub behind the middleware -/

/-- C8 as stated fails: when the provider denies ("admin", "/users/1", "DELETE"),
the admin chain around `deleteUser` answers `DELETE /users/1` with 403, not 501. -/
theorem admin_delete_denied_not_501 :
    ((constEnforcer false none : Enforcer Unit) "admin" "/users/1" "DELETE" ()).1 = (false, none)
      ∧ (casbinMiddleware "admin" (constEnforcer false none) deleteUser
          newResponse reqDeleteUser startWorld).1.statusCode = 403
      ∧ (casbinMiddleware "admin" (constEnforcer false none) deleteUser
          newResponse reqDeleteUser startWorld).1.statusCode ≠ 501 := by
  refine ⟨?_, ?_, ?_⟩ <;> decide

/-- C8, amended: the admin chain `casbinMiddleware "admin" enforcer` around
`deleteUser` consults the provider first and answers `DELETE /users/1` with
501 when the decision is Allow, 403 when it is Deny and 500 when the provider
fails. -/
theorem admin_delete_status {σ : Type} (e : Enforcer σ) (w : ResponseWriter) (r : Request)
    (s : World σ) (hw : w.status = none)
    (hm : r.Method = "DELETE") (hp : r.Path = "/users/1") :
    (casbinMiddleware "admin" e deleteUser w r s).1.statusCode
      = match (e "admin" "/users/1" "DELETE" s.ext).1 with
        | (_, some _) => 500
        | (false, none) => 403
        | (true, none) => 501 := by
  rcases hres : (e "admin" "/users/1" "DELETE" s.ext).1 with ⟨allowed, err⟩
  have hres2 : (e "admin" r.Path r.Method s.ext).1 = (allowed, err) := by rw [hm, hp]; exact hres
  cases err with
  | some msg =>
    rw [casbinMiddleware_of_error "admin" e deleteUser w r s allowed msg hres2]
    cases allowed <;> exact Error_statusCode w _ _ hw
  | none =>
    cases allowed with
    | false =>
      rw [casbinMiddleware_of_deny "admin" e deleteUser w r s hres2]
      exact Error_statusCode w _ _ hw
    | true =>
      rw [casbinMiddleware_of_allow "admin" e deleteUser w r s hres2]
      exact Error_statusCode w _ _ hw

theorem admin_delete_status_witness :
    (casbinMiddleware "admin" (constEnforcer true none) deleteUser
        newResponse reqDeleteUser startWorld).1.statusCode = 501 :=
  admin_delete_status (constEnforcer true none) newResponse reqDeleteUser startWorld rfl rfl rfl

/-! ## Cancellation -/

/-- C9 as stated fails: for a request whose context is already cancelled and a
provider that allows it, the wrapped handler is invoked. -/
theorem cancelled_request_still_served :
    reqCancelled.Cancelled = true
      ∧ ((constEnforcer true none : Enforcer Unit) "user" reqCancelled.Path reqCancelled.Method
          ()).1 = (true, none)
      ∧ (casbinMiddleware "user" (probeEnforcer (constEnforcer true none))
          (probeHandler getUserByID) newResponse reqCancelled startProbe).2.ext.served
          = [(newResponse, reqCancelled)]
      ∧ (casbinMiddleware "user" (probeEnforcer (constEnforcer true none))
          (probeHandler getUserByID) newResponse reqCancelled startProbe).2.ext.served ≠ [] := by
  refine ⟨rfl, rfl, rfl, ?_⟩
  decide

/-- C9, amended: `casbinMiddleware` does not consult the request context.  For
every request, its context cancelled (`c = true`) or not by the time the
provider's decision is returned, the wrapped handler is invoked exactly once
when the decision is Allow, and not at all when it is Deny or the provider
fails. -/
theorem cancellation_not_consulted {σ : Type} (role : String) (e : Enforcer σ)
    (next : Handler σ) (w : ResponseWriter) (r : Request) (c : Bool) (s : World (Probe σ)) :
    (casbinMiddleware role (probeEnforcer e) (probeHandler next) w
        { r with Cancelled := c } s).2.ext.served
      = s.ext.served
          ++ (if (e role r.Path r.Method s.ext.inner).1 = (true, none)
              then [(w, { r with Cancelled := c })] else []) := by
  rcases hres : (e role r.Path r.Method s.ext.inner).1 with ⟨allowed, err⟩
  have hp : (probeEnforcer e role ({ r with Cancelled := c } : Request).Path
      ({ r with Cancelled := c } : Request).Method s.ext).1 = (allowed, err) := by
    rw [probeEnforcer_fst]; exact hres
  cases err with
  | some msg =>
    rw [casbinMiddleware_of_error role (probeEnforcer e) (probeHandler next) w _ s allowed msg hp]
    simp [probeEnforcer_snd]
  | none =>
    cases allowed with
    | false =>
      rw [casbinMiddleware_of_deny role (probeEnforcer e) (probeHandler next) w _ s hp]
      simp [probeEnforcer_snd]
    | true =>
      rw [casbinMiddleware_of_allow role (probeEnforcer e) (probeHandler next) w _ s hp]
      simp [probeHandler, probeEnforcer_snd]

/-! ## The user list across requests -/

theorem casbinMiddleware_users {σ : Type} (role : String) (e : Enforcer σ) (next : Handler σ)
    (hnext : ∀ w r (s : World σ), (next w r s).2.users = s.users)
    (w : ResponseWriter) (r : Request) (s : World σ) :
    (casbinMiddleware role e next w r s).2.users = s.users := by
  rcases hres : (e role r.Path r.Method s.ext).1 with ⟨allowed, err⟩
  cases err with
  | some msg => rw [casbinMiddleware_of_error role e next w r s allowed msg hres]
  | none =>
    cases allowed with
    | false => rw [casbinMiddleware_of_deny role e next w r s hres]
    | true => rw [casbinMiddleware_of_allow role e next w r s hres, hnext]

theorem casbinMiddleware_getUserByID_response {σ : Type} (role : String) (e : Enforcer σ)
    (w : ResponseWriter) (r : Request) (s : World σ) (d : Bool × Option String)
    (hd : (e role r.Path r.Method s.ext).1 = d) :
    (casbinMiddleware role e getUserByID w r s).1
      = if d.2.isSome then Error w "InternalServerError" StatusInternalServerError
        else if !d.1 then Error w "Forbidden" StatusForbidden
        else getUserByIDLoop w r (URLParam r "id") s.users := by
  rcases d with ⟨allowed, err⟩
  cases err with
  | some msg => rw [casbinMiddleware_of_error role e getUserByID w r s allowed msg hd]; rfl
  | none =>
    cases allowed with
    | false => rw [casbinMiddleware_of_deny role e getUserByID w r s hd]; rfl
    | true => rw [casbinMiddleware_of_allow role e getUserByID w r s hd]; rfl

theorem serveN_getUserByID {σ : Type} (role : String) (e : Enforcer σ) (r : Request)
    (d : Bool × Option String) (hd : ∀ st, (e role r.Path r.Method st).1 = d) (n : Nat) :
    ∀ s : World σ,
      (serveN (casbinMiddleware role e getUserByID) r n s).2.users = s.users
        ∧ (serveN (casbinMiddleware role e getUserByID) r n s).1.length = n
        ∧ ∀ x ∈ (serveN (casbinMiddleware role e getUserByID) r n s).1,
            x = (serve (casbinMiddleware role e getUserByID) r s).1 := by
  induction n with
  | zero => intro s; simp [serveN]
  | succ n ih =>
    intro s
    have hu : (serve (casbinMiddleware role e getUserByID) r s).2.users = s.users :=
      casbinMiddleware_users role e getUserByID (fun _ _ _ => rfl) newResponse r s
    have hsame : (serve (casbinMiddleware role e getUserByID) r
        (serve (casbinMiddleware role e getUserByID) r s).2).1
          = (serve (casbinMiddleware role e getUserByID) r s).1 := by
      unfold serve at hu ⊢
      rw [casbinMiddleware_getUserByID_response role e newResponse r _ d (hd _),
        casbinMiddleware_getUserByID_response role e newResponse r s d (hd _), hu]
    obtain ⟨ih1, ih2, ih3⟩ := ih (serve (casbinMiddleware role e getUserByID) r s).2
    refine ⟨?_, ?_, ?_⟩
    · simp only [serveN]; rw [ih1, hu]
    · simp only [serveN, List.length_cons, ih2]
    · intro x hx
      simp only [serveN, List.mem_cons] at hx
      rcases hx with rfl | hx
      · rfl
      · rw [ih3 x hx, hsame]

/-- C10: with the user list as explicit state, every handler (`getAllUsers`,
`getUserByID`, `createUser`, `updateUser`, `deleteUser`) leaves the world, user
list included, unchanged, and every branch of `casbinMiddleware` leaves the
user list unchanged whenever the wrapped handler does; so serving the same
`GET /users/{id}` request `n` times in sequence, under a provider whose decision
`d` for the request's triple is the same each time, leaves the user list
unchanged and yields `n` responses all equal to the first one, status and body
included. -/
theorem users_unchanged_and_get_idempotent {σ : Type} (role : String) (e : Enforcer σ)
    (r : Request) (s : World σ) (d : Bool × Option String) (n : Nat)
    (hd : ∀ st, (e role r.Path r.Method st).1 = d) :
    (∀ (w : ResponseWriter) (r0 : Request) (s0 : World σ),
        (getAllUsers w r0 s0).2 = s0 ∧ (getUserByID w r0 s0).2 = s0
          ∧ (createUser w r0 s0).2 = s0 ∧ (updateUser w r0 s0).2 = s0
          ∧ (deleteUser w r0 s0).2 = s0)
      ∧ (∀ (next : Handler σ), (∀ w r0 (s0 : World σ), (next w r0 s0).2.users = s0.users) →
          ∀ (w : ResponseWriter) (r0 : Request) (s0 : World σ),
            (casbinMiddleware role e next w r0 s0).2.users = s0.users)
      ∧ (serveN (casbinMiddleware role e getUserByID) r n s).2.users = s.users
      ∧ (serveN (casbinMiddleware role e getUserByID) r n s).1.length = n
      ∧ (∀ x ∈ (serveN (casbinMiddleware role e getUserByID) r n s).1,
          x = (serve (casbinMiddleware role e getUserByID) r s).1
            ∧ x.statusCode = (serve (casbinMiddleware role e getUserByID) r s).1.statusCode
            ∧ x.body = (serve (casbinMiddleware role e getUserByID) r s).1.body) := by
  obtain ⟨h1, h2, h3⟩ := serveN_getUserByID role e r d hd n s
  refine ⟨fun _ _ _ => ⟨rfl, rfl, rfl, rfl, rfl⟩, ?_, h1, h2, ?_⟩
  · intro next hnext w r0 s0
    exact casbinMiddleware_users role e next hnext w r0 s0
  · intro x hx
    have hxeq := h3 x hx
    exact ⟨hxeq, by rw [hxeq], by rw [hxeq]⟩

theorem users_unchanged_and_get_idempotent_witness :
    (serveN (casbinMiddleware "user" (constEnforcer true none) getUserByID)
        reqGetUser 3 startWorld).2.users = users
      ∧ (serveN (casbinMiddleware "user" (constEnforcer true none) getUserByID)
        reqGetUser 3 startWorld).1.length = 3
      ∧ ∀ x ∈ (serveN (casbinMiddleware "user" (constEnforcer true none) getUserByID)
          reqGetUser 3 startWorld).1,
          x = (serve (casbinMiddleware "user" (constEnforcer true none) getUserByID)
            reqGetUser startWorld).1 :=
  have h := users_unchanged_and_get_idempotent "user" (constEnforcer true none) reqGetUser
    startWorld (true, none) 3 (fun _ => rfl)
  ⟨h.2.2.1, h.2.2.2.1, fun x hx => (h.2.2.2.2 x hx).1⟩


end CashbinEx
